import Mathlib

/-!
Verification development for the Secure Environment subsystem of the
`data-grabber` repository (`src/security/secure-delete.js`,
`src/security/secure-storage.js`, `src/security/isolation.js`,
`src/security/memory.js`, `src/security/index.js`).

The JavaScript code is shallowly embedded: JavaScript strings become
`List Char` (written with `"literal".toList`), byte buffers become
`List Nat`, the filesystem visible to one storage container becomes an
association list from paths to byte lists, thrown `Error` values become
explicit error constructors, and asynchronous effect sequences (overwrite
passes, cleanup steps, deferred `process.nextTick` deliveries) become
explicit event traces.  Library primitives that are not part of the
repository (Node's `path` module, `crypto`'s AES-256-GCM,
`crypto.randomBytes`, SHA-256) are modelled: `path` by an executable
reimplementation of POSIX `normalize`/`join`, AES-GCM by an `AEAD`
parameter record whose round-trip behaviour is an explicit hypothesis,
and entropy and hashing by oracle parameters.
-/

namespace DataGrabber

/-- JavaScript strings in the model: lists of characters. -/
abbrev Str := List Char

/-- Byte buffers in the model: lists of natural numbers (each < 256 in
every concrete instance we evaluate). -/
abbrev Bytes := List Nat

/-! ### Model of Node's POSIX `path` module (library dependency)

`path.normalize` splits on `/`, drops empty and `.` segments, resolves
`..` against the preceding segment (never above the root of an absolute
path), and preserves a trailing separator.  `path.join` concatenates the
parts with `/` and normalizes.  `path.sep` is `/`. -/

/-- Split a character list on the `/` separator (model of splitting a
path into segments). -/
def splitOnSep : Str → List Str
  | [] => [[]]
  | c :: rest =>
    match splitOnSep rest with
    | [] => [[]]
    | s :: ss => if c = '/' then [] :: s :: ss else (c :: s) :: ss

/-- One step of POSIX path normalization: fold a segment into the stack
of segments accumulated so far.  Empty and `.` segments are dropped;
`..` cancels the previous real segment and never climbs above the root
of an absolute path. -/
def normStep (isAbs : Bool) (acc : List Str) (seg : Str) : List Str :=
  if seg = [] || seg = ['.'] then acc
  else if seg = ['.', '.'] then
    match acc.getLast? with
    | some t => if t = ['.', '.'] then acc ++ [seg] else acc.dropLast
    | none => if isAbs then [] else [seg]
  else acc ++ [seg]

/-- Model of `path.normalize` (POSIX). -/
def pathNormalize (p : Str) : Str :=
  let isAbs := decide (p.head? = some '/')
  let segs := (splitOnSep p).foldl (normStep isAbs) []
  let core := (segs.intersperse ['/']).flatten
  let base := if isAbs then '/' :: core else if core = [] then ['.'] else core
  if decide (p.getLast? = some '/') && !(decide (base.getLast? = some '/'))
      && !(decide (base = ['.'])) then base ++ ['/'] else base

/-- Model of `path.sep` on POSIX. -/
def pathSep : Str := ['/']

/-- Model of `path.join a b` (POSIX): concatenate with a separator, then
normalize. -/
def pathJoin (a b : Str) : Str :=
  let joined := if a = [] then b else if b = [] then a else a ++ '/' :: b
  if joined = [] then ['.'] else pathNormalize joined

/-! ### `SecureTemporaryStorage._sanitizeKey` (`secure-storage.js`)

`key.replace(/[/\\?%*:|"<>]/g, '_')`, then, when the replaced form is
longer than 255 characters, the SHA-256 hex digest of the original key.
SHA-256 itself is Node library code, so it enters the model as a
parameter `sha256hex`. -/

/-- The characters replaced by `_` in `_sanitizeKey`
(the regex class `[/\\?%*:|"<>]`). -/
def badKeyChars : List Char := ['/', '\\', '?', '%', '*', ':', '|', '"', '<', '>']

/-- Model of `SecureTemporaryStorage._sanitizeKey`. -/
def _sanitizeKey (sha256hex : Str → Str) (key : Str) : Str :=
  let sanitized := key.map (fun c => if badKeyChars.contains c then '_' else c)
  if sanitized.length > 255 then sha256hex key else sanitized

/-- Model of `IsolatedEnvironment._isPathAllowed` (`isolation.js`):
normalize the tested path, and accept when it equals a normalized allowed
path or starts with one followed by `path.sep`. -/
def _isPathAllowed (testPath : Str) (allowedPaths : List Str) : Bool :=
  let normalizedPath := pathNormalize testPath
  allowedPaths.any (fun allowedPath =>
    let normalizedAllowedPath := pathNormalize allowedPath
    normalizedPath = normalizedAllowedPath ||
      (normalizedAllowedPath ++ pathSep).isPrefixOf normalizedPath)

/-! ### `SecureTemporaryStorage` (`secure-storage.js`)

The constructor draws a 256-bit `encryptionKey` and a 16-byte `iv` once;
`_encrypt` always uses `this.iv`, so the per-environment IV — not a fresh
per-item nonce — heads every ciphertext file.  AES-256-GCM itself is Node
library code (`crypto.createCipheriv` / `createDecipheriv`) and enters the
model as an `AEAD` record. -/

/-- Interface of the `aes-256-gcm` cipher from Node's `crypto` module:
`enc key iv data` returns `(ciphertext, authTag)` (the concatenation of
`cipher.update`/`cipher.final` and `cipher.getAuthTag()`); `dec key iv
authTag ciphertext` returns the plaintext, or `none` when the tag check
fails (`decipher.final()` throwing). -/
structure AEAD where
  enc : Bytes → Bytes → Bytes → Bytes × Bytes
  dec : Bytes → Bytes → Bytes → Bytes → Option Bytes

/-- Lifecycle and I/O errors thrown by the embedded methods, named after
the `Error` messages in the source. -/
inductive Err where
  /-- `'Secure storage has been destroyed'` (the spec's `AlreadyDestroyed`). -/
  | storageDestroyed
  /-- `'Isolated environment is not active'` (the spec's `AlreadyDestroyed`
  at the environment layer). -/
  | envNotActive
  /-- `ENOENT` from `fs.readFile` (the spec's `NotFound`). -/
  | notFound
  /-- tag-check failure in `_decrypt` (the spec's `IntegrityError`). -/
  | integrityError
  deriving DecidableEq, Repr

/-- State of one `SecureTemporaryStorage` container.  `files` is the slice
of the filesystem this container touches: an association list from
absolute paths to file contents. -/
structure SecureTemporaryStorage where
  storagePath : Str
  isDestroyed : Bool
  encryptionKey : Bytes
  iv : Bytes
  files : List (Str × Bytes)
  deriving DecidableEq, Repr

/-- Model of `fs.promises.writeFile`: create or overwrite the file at
`p`. -/
def writeFileFS : List (Str × Bytes) → Str → Bytes → List (Str × Bytes)
  | [], p, data => [(p, data)]
  | e :: rest, p, data =>
    if e.1 = p then (p, data) :: rest else e :: writeFileFS rest p data

/-- Model of `fs.promises.readFile`: `none` is `ENOENT`. -/
def readFileFS : List (Str × Bytes) → Str → Option Bytes
  | [], _ => none
  | e :: rest, p => if e.1 = p then some e.2 else readFileFS rest p

/-- Model of `SecureTemporaryStorage._encrypt`: encrypt under the
container key with the container-wide `this.iv` and return
`iv ‖ authTag ‖ ciphertext` (the documented
`[16 bytes IV][16 bytes auth tag][encrypted data]` layout). -/
def _encrypt (gcm : AEAD) (s : SecureTemporaryStorage) (data : Bytes) : Bytes :=
  let r := gcm.enc s.encryptionKey s.iv data
  s.iv ++ r.2 ++ r.1

/-- Model of `SecureTemporaryStorage._decrypt`: slice the stored blob at
offsets 16 and 32 and decrypt with the IV taken from the blob. -/
def _decrypt (gcm : AEAD) (key : Bytes) (encryptedData : Bytes) : Option Bytes :=
  let iv := encryptedData.take 16
  let authTag := (encryptedData.drop 16).take 16
  let encrypted := encryptedData.drop 32
  gcm.dec key iv authTag encrypted

/-- Model of `SecureTemporaryStorage.store`: refuse after destruction,
otherwise encrypt and write `storagePath/sanitize(key)`, returning the
file path. -/
def store (gcm : AEAD) (sha256hex : Str → Str) (s : SecureTemporaryStorage)
    (key : Str) (data : Bytes) :
    Except Err (Str × SecureTemporaryStorage) :=
  if s.isDestroyed then .error .storageDestroyed
  else
    let filePath := pathJoin s.storagePath (_sanitizeKey sha256hex key)
    let encryptedData := _encrypt gcm s data
    .ok (filePath, { s with files := writeFileFS s.files filePath encryptedData })

/-- Model of `SecureTemporaryStorage.retrieve`: refuse after destruction,
otherwise read `storagePath/sanitize(key)` and decrypt. -/
def retrieve (gcm : AEAD) (sha256hex : Str → Str) (s : SecureTemporaryStorage)
    (key : Str) : Except Err Bytes :=
  if s.isDestroyed then .error .storageDestroyed
  else
    let filePath := pathJoin s.storagePath (_sanitizeKey sha256hex key)
    match readFileFS s.files filePath with
    | none => .error .notFound
    | some encryptedData =>
      match _decrypt gcm s.encryptionKey encryptedData with
      | none => .error .integrityError
      | some d => .ok d

/-- Model of the success path of `SecureTemporaryStorage.destroy`:
`secureDeleteDirectory` removes every file, the key and IV buffers are
zero-filled, and `isDestroyed` is set. -/
def destroyStorage (s : SecureTemporaryStorage) : SecureTemporaryStorage :=
  if s.isDestroyed then s
  else
    { s with
      files := []
      encryptionKey := List.replicate s.encryptionKey.length 0
      iv := List.replicate s.iv.length 0
      isDestroyed := true }

/-! ### `IsolatedEnvironment` data methods (`isolation.js`) -/

/-- State of one `IsolatedEnvironment`: the `isActive` flag guarding
every data method, plus the underlying storage container. -/
structure IsolatedEnvironment where
  isActive : Bool
  secureStorage : SecureTemporaryStorage
  deriving DecidableEq, Repr

/-- Model of `IsolatedEnvironment.storeData`: refuse when inactive, else
delegate to the storage container. -/
def storeData (gcm : AEAD) (sha256hex : Str → Str) (env : IsolatedEnvironment)
    (key : Str) (data : Bytes) :
    Except Err (Str × IsolatedEnvironment) :=
  if !env.isActive then .error .envNotActive
  else
    (store gcm sha256hex env.secureStorage key data).map
      (fun r => (r.1, { env with secureStorage := r.2 }))

/-- Model of `IsolatedEnvironment.retrieveData`. -/
def retrieveData (gcm : AEAD) (sha256hex : Str → Str) (env : IsolatedEnvironment)
    (key : Str) : Except Err Bytes :=
  if !env.isActive then .error .envNotActive
  else retrieve gcm sha256hex env.secureStorage key

/-- Model of `IsolatedEnvironment.execute`: refuse when inactive, else run
the caller-supplied function and propagate its result or error. -/
def execute (env : IsolatedEnvironment) (fn : Unit → Except Err Bytes) :
    Except Err Bytes :=
  if !env.isActive then .error .envNotActive
  else fn ()

/-- Model of the success path of `IsolatedEnvironment.cleanup`: restores
interceptions, destroys the storage container, and clears `isActive`. -/
def cleanupEnv (env : IsolatedEnvironment) : IsolatedEnvironment :=
  if !env.isActive then env
  else { isActive := false, secureStorage := destroyStorage env.secureStorage }

/-- The data operations a collaborator can issue against an environment
handle (`execute` carries the caller-supplied function). -/
inductive EnvOp where
  | storeOp (key : Str) (data : Bytes)
  | retrieveOp (key : Str)
  | executeOp (fn : Unit → Except Err Bytes)

/-- Run one `EnvOp`; results are collapsed to success/error, the state is
threaded. -/
def stepEnv (gcm : AEAD) (sha256hex : Str → Str) (env : IsolatedEnvironment) :
    EnvOp → Except Err Unit × IsolatedEnvironment
  | .storeOp k d =>
    match storeData gcm sha256hex env k d with
    | .ok r => (.ok (), r.2)
    | .error e => (.error e, env)
  | .retrieveOp k => ((retrieveData gcm sha256hex env k).map (fun _ => ()), env)
  | .executeOp fn => ((execute env fn).map (fun _ => ()), env)

/-- Run a whole trace of data operations, collecting each call's result. -/
def runOps (gcm : AEAD) (sha256hex : Str → Str) (env : IsolatedEnvironment) :
    List EnvOp → List (Except Err Unit)
  | [] => []
  | op :: rest =>
    let r := stepEnv gcm sha256hex env op
    r.1 :: runOps gcm sha256hex r.2 rest

/-- The file path `store`/`retrieve` use for a key:
`path.join(this.storagePath, this._sanitizeKey(key))`. -/
def storePath (sha256hex : Str → Str) (s : SecureTemporaryStorage) (key : Str) : Str :=
  pathJoin s.storagePath (_sanitizeKey sha256hex key)

/-- The storage state after a `store` call (unchanged when the call
threw). -/
def afterStore (gcm : AEAD) (sha256hex : Str → Str) (s : SecureTemporaryStorage)
    (key : Str) (data : Bytes) : SecureTemporaryStorage :=
  match store gcm sha256hex s key data with
  | .ok r => r.2
  | .error _ => s

/-! ### Concrete instances used to evaluate the model on closed inputs -/

/-- A stand-in cipher satisfying the AEAD interface: the ciphertext is the
plaintext and the tag is sixteen zero bytes, so decryption is the identity
whenever the tag verifies. -/
def toyAEAD : AEAD where
  enc := fun _ _ data => (data, List.replicate 16 0)
  dec := fun _ _ authTag ct => if authTag = List.replicate 16 0 then some ct else none

/-- A stand-in SHA-256 hex oracle (only reached for keys whose sanitized
form is longer than 255 characters). -/
def toyHash : Str → Str := fun _ => "deadbeef".toList

/-- A concrete live storage container. -/
def storage0 : SecureTemporaryStorage where
  storagePath := "/tmp/data-grabber/env1".toList
  isDestroyed := false
  encryptionKey := List.replicate 32 1
  iv := List.replicate 16 2
  files := []

/-! ### `createSecureEnvironment(...).destroy` (`index.js`) with
`IsolatedEnvironment.cleanup` (`isolation.js`) and
`MemoryProtection.cleanup` (`memory.js`)

`handle.destroy` wraps `isolatedEnv.cleanup()` and
`memoryProtection.cleanup()` each in its own `try`, flips a `success`
flag on a caught error, and returns the flag — so it resolves with a
boolean and never throws.  `cleanup()` runs network restore, filesystem
restore, and storage destruction inside one `try` whose `catch`
rethrows, so a raise aborts the remaining sub-steps.
`MemoryProtection.cleanup` catches internally and reports failure by
returning `false`, which `destroy` ignores.  Raises are injected through
a `DestroyFaults` record. -/

/-- Which sub-steps of teardown raise (`...Throws`) or fail internally
(`memCleanupFails`). -/
structure DestroyFaults where
  netRestoreThrows : Bool
  fsRestoreThrows : Bool
  storeDestroyThrows : Bool
  memCleanupFails : Bool
  deriving DecidableEq, Repr

/-- The observable sub-steps of teardown, in the order the code attempts
them. -/
inductive DStep where
  | netRestore
  | fsRestore
  | storeDestroy
  | memCleanup
  deriving DecidableEq, Repr

/-- Model of `IsolatedEnvironment.cleanup` on an active, fully configured
environment: network restore, then filesystem restore, then storage
destruction, in one `try` — the first raise aborts the rest and
propagates.  The trace records every attempted sub-step, the raising one
included. -/
def cleanupRun (f : DestroyFaults) : Except Unit Unit × List DStep :=
  if f.netRestoreThrows then (.error (), [.netRestore])
  else if f.fsRestoreThrows then (.error (), [.netRestore, .fsRestore])
  else if f.storeDestroyThrows then (.error (), [.netRestore, .fsRestore, .storeDestroy])
  else (.ok (), [.netRestore, .fsRestore, .storeDestroy])

/-- Model of `MemoryProtection.cleanup`: its own `try`/`catch` converts
any internal failure into a `false` return, so it never throws. -/
def memoryCleanupRun (f : DestroyFaults) : Bool × List DStep :=
  (!f.memCleanupFails, [.memCleanup])

/-- Model of `handle.destroy` from `createSecureEnvironment`: run
`cleanup()` (flipping `success` if it threw), then
`memoryProtection.cleanup()` (whose boolean return is dropped), and
resolve with `success`. -/
def destroyRun (f : DestroyFaults) : Bool × List DStep :=
  let r1 := cleanupRun f
  let success := match r1.1 with | .ok _ => true | .error _ => false
  let r2 := memoryCleanupRun f
  (success, r1.2 ++ r2.2)

/-! ### `IsolatedEnvironment._restrictFileSystem` (`isolation.js`)

The method saves `fs.readFile`, `fs.writeFile`, `fs.readdir` and
`fs.unlink` into `originalFileHandles`, but assigns replacement
functions only to `fs.readFile` and `fs.writeFile`; `readdir` and
`unlink` keep their original bindings.  Each replacement rejects a path
failing `_isPathAllowed` with an `EACCES` security error and otherwise
applies the saved original with the original arguments. -/

/-- The filesystem entry points `_restrictFileSystem` saves. -/
inductive FsEntry where
  | readFile
  | writeFile
  | readdir
  | unlink
  deriving DecidableEq, Repr

/-- Whether an entry point is replaced by a path-checking wrapper or left
as the original binding. -/
inductive FsHandler where
  | restricted
  | original
  deriving DecidableEq, Repr

/-- The bindings after `_restrictFileSystem` ran: only `readFile` and
`writeFile` are replaced. -/
def restrictedTable : FsEntry → FsHandler
  | .readFile => .restricted
  | .writeFile => .restricted
  | .readdir => .original
  | .unlink => .original

/-- Outcome of one intercepted-or-not filesystem call:
`pathNotAllowed` is the `EACCES` security rejection (the spec's
`PathNotAllowed`); `passedThrough` means the saved original operation ran
with the original arguments. -/
inductive FsCallResult where
  | pathNotAllowed
  | passedThrough
  deriving DecidableEq, Repr

/-- Model of invoking one filesystem entry point while restriction is
active. -/
def callFs (allowedPaths : List Str) (e : FsEntry) (filePath : Str) : FsCallResult :=
  match restrictedTable e with
  | .restricted =>
    if _isPathAllowed filePath allowedPaths then .passedThrough else .pathNotAllowed
  | .original => .passedThrough

/-! ### `NetworkBlocker._overrideNodeNetworking` (`isolation.js`)

`http.request`, `http.get`, `https.request`, `https.get` are replaced by
`blockingRequest`, and `net.Socket.prototype.connect`/`connectTCP` by
stubs.  `blockingRequest` schedules the blocked-error callback and a
mock request's `'error'` emission via `process.nextTick` and returns the
mock; the socket stubs schedule an `'error'` emission via
`process.nextTick` and return `this`.  Nothing throws during the call
itself and no network I/O is ever initiated. -/

/-- Events observable around one call to a replaced networking entry
point: bytes leaving the process, or delivery of the
`'Network access blocked by security isolation'` error (the spec's
`NetworkBlocked`). -/
inductive NetEvt where
  | sendBytes
  | errorDelivered
  deriving DecidableEq, Repr

/-- Effects of one stub call, split into the synchronous phase (during
the call) and the `process.nextTick` phase (the following event-loop
tick). -/
structure StubCall where
  syncEvents : List NetEvt
  nextTickEvents : List NetEvt
  throws : Bool
  deriving DecidableEq, Repr

/-- Model of `blockingRequest` (`cb` says whether the caller passed a
response callback, which would receive the blocked error). -/
def blockingRequest (cb : Bool) : StubCall where
  syncEvents := []
  nextTickEvents := (if cb then [NetEvt.errorDelivered] else []) ++ [NetEvt.errorDelivered]
  throws := false

/-- Model of the replaced `net.Socket.prototype.connect` /
`connectTCP`. -/
def socketConnectStub : StubCall where
  syncEvents := []
  nextTickEvents := [NetEvt.errorDelivered]
  throws := false

/-- The outbound entry points `_overrideNodeNetworking` replaces. -/
inductive NetEntry where
  | httpRequest
  | httpGet
  | httpsRequest
  | httpsGet
  | socketConnect
  | socketConnectTCP
  deriving DecidableEq, Repr

/-- The stub a call to each replaced entry point reaches while blocking
is active. -/
def overriddenStub : NetEntry → Bool → StubCall
  | .socketConnect, _ => socketConnectStub
  | .socketConnectTCP, _ => socketConnectStub
  | .httpRequest, cb => blockingRequest cb
  | .httpGet, cb => blockingRequest cb
  | .httpsRequest, cb => blockingRequest cb
  | .httpsGet, cb => blockingRequest cb

/-! ### `overwriteFile` and the manual secure-delete path
(`secure-delete.js`)

`secureDelete` defaults `passes` to 3 and (on macOS, and on Unix when
`shred` is unavailable) runs `overwriteFile` followed by
`fs.promises.unlink`.  `overwriteFile` writes pass `i`'s pattern over
bytes `0..fileSize` and calls `fileHandle.sync()` after each write; the
handle is closed in a `finally`.  `crypto.randomBytes` is the entropy
oracle `rnd`. -/

/-- The pattern pass `i` writes: pass 0 all `0xFF`, the final pass all
`0x00`, the middle passes `crypto.randomBytes(fileSize)`. -/
def overwritePattern (passes fileSize : Nat) (rnd : Nat → Bytes) (i : Nat) : Bytes :=
  if i = 0 then List.replicate fileSize 0xFF
  else if i = passes - 1 then List.replicate fileSize 0x00
  else rnd i

/-- Device-level operations the manual deletion path performs. -/
inductive DevOp where
  | write (pattern : Bytes)
  | sync
  | closeHandle
  | unlink
  deriving DecidableEq, Repr

/-- `options.passes` defaults to 3 in `secureDelete`. -/
def secureDeleteDefaultPasses : Nat := 3

/-- Model of `overwriteFile` as the trace of device operations it
performs when every write succeeds. -/
def overwriteFile (passes fileSize : Nat) (rnd : Nat → Bytes) : List DevOp :=
  (((List.range passes).map fun i =>
    [DevOp.write (overwritePattern passes fileSize rnd i), DevOp.sync]).flatten)
    ++ [DevOp.closeHandle]

/-- Model of the manual overwrite-then-unlink path
(`secureDeleteMac`, and the Unix fallback): `overwriteFile` then
`fs.promises.unlink`. -/
def secureDeleteManual (passes fileSize : Nat) (rnd : Nat → Bytes) : List DevOp :=
  overwriteFile passes fileSize rnd ++ [DevOp.unlink]

/-- The write patterns of a device trace, in order. -/
def writesOf : List DevOp → List Bytes
  | [] => []
  | DevOp.write p :: rest => p :: writesOf rest
  | DevOp.sync :: rest => writesOf rest
  | DevOp.closeHandle :: rest => writesOf rest
  | DevOp.unlink :: rest => writesOf rest

/-- Check that every write is immediately followed by a `sync` (each
pass flushed before the next begins). -/
def syncFollowsWrites : List DevOp → Bool
  | [] => true
  | [DevOp.write _] => false
  | DevOp.write _ :: DevOp.sync :: rest => syncFollowsWrites rest
  | DevOp.write _ :: DevOp.write _ :: _ => false
  | DevOp.write _ :: DevOp.closeHandle :: _ => false
  | DevOp.write _ :: DevOp.unlink :: _ => false
  | DevOp.sync :: rest => syncFollowsWrites rest
  | DevOp.closeHandle :: rest => syncFollowsWrites rest
  | DevOp.unlink :: rest => syncFollowsWrites rest

/-! ### The manual path under write failures (for the retry question)

`overwriteFile` has no retry: a rejected `fileHandle.write` propagates
out of the loop (past the `finally` that closes the handle) and
`secureDeleteMac`/the Unix fallback never reach `unlink`.  The oracle
`ok i` says whether pass `i`'s single write attempt succeeds. -/

/-- Events of a fault-injected run. -/
inductive RunEv where
  | attemptWrite (i : Nat)
  | synced
  | closed
  | unlinked
  deriving DecidableEq, Repr

/-- The overwrite loop over the remaining pass indices: each pass makes
exactly one write attempt; a failure aborts with the error. -/
def overwriteRunGo (ok : Nat → Bool) : List Nat → Except Unit Unit × List RunEv
  | [] => (.ok (), [])
  | i :: rest =>
    if ok i then
      let r := overwriteRunGo ok rest
      (r.1, RunEv.attemptWrite i :: RunEv.synced :: r.2)
    else
      (.error (), [RunEv.attemptWrite i])

/-- Model of `overwriteFile` under the fault oracle; the `finally`
closes the handle in every outcome. -/
def overwriteRun (passes : Nat) (ok : Nat → Bool) : Except Unit Unit × List RunEv :=
  let r := overwriteRunGo ok (List.range passes)
  (r.1, r.2 ++ [RunEv.closed])

/-- Model of the manual deletion path under the fault oracle: `unlink`
runs only when `overwriteFile` resolved. -/
def secureDeleteManualRun (passes : Nat) (ok : Nat → Bool) :
    Except Unit Unit × List RunEv :=
  let r := overwriteRun passes ok
  match r.1 with
  | .ok _ => (.ok (), r.2 ++ [RunEv.unlinked])
  | .error e => (.error e, r.2)

/-- Number of write attempts in a run trace. -/
def countAttempts : List RunEv → Nat
  | [] => 0
  | RunEv.attemptWrite _ :: rest => countAttempts rest + 1
  | RunEv.synced :: rest => countAttempts rest
  | RunEv.closed :: rest => countAttempts rest
  | RunEv.unlinked :: rest => countAttempts rest

/-- Formalization of the claim phrase "the stored path lies under the
environment's storageRoot": after normalization the stored path extends
the root at a separator boundary. -/
def liesUnderStorageRoot (root p : Str) : Bool :=
  (pathNormalize root ++ pathSep).isPrefixOf (pathNormalize p)

example : pathNormalize "/tmp/dg/env/..".toList = "/tmp/dg".toList := by decide
example : pathNormalize "/tmp//a/./b".toList = "/tmp/a/b".toList := by decide
example : pathJoin "/tmp/data-grabber/env1".toList "..".toList
    = "/tmp/data-grabber".toList := by decide
example : _sanitizeKey (fun _ => []) "..".toList = "..".toList := by decide
example : _sanitizeKey (fun _ => []) "a/b".toList = "a_b".toList := by decide
example : _isPathAllowed "/tmp-evil".toList ["/tmp".toList] = false := by decide
example : _isPathAllowed "/tmp/x".toList ["/tmp".toList] = true := by decide
example : _isPathAllowed "/tmp/../etc/passwd".toList ["/tmp".toList] = false := by decide

/-! ### Shared lemmas about the filesystem and lifecycle models -/

theorem readFileFS_writeFileFS (files : List (Str × Bytes)) (p : Str) (data : Bytes) :
    readFileFS (writeFileFS files p data) p = some data := by
  induction files with
  | nil => simp [writeFileFS, readFileFS]
  | cons e rest ih =>
    by_cases h : e.1 = p
    · simp [writeFileFS, readFileFS, h]
    · simp [writeFileFS, readFileFS, h, ih]

theorem _decrypt_encrypt (gcm : AEAD) (s : SecureTemporaryStorage) (d : Bytes)
    (hiv : s.iv.length = 16)
    (htag : (gcm.enc s.encryptionKey s.iv d).2.length = 16) :
    _decrypt gcm s.encryptionKey (_encrypt gcm s d)
      = gcm.dec s.encryptionKey s.iv (gcm.enc s.encryptionKey s.iv d).2
          (gcm.enc s.encryptionKey s.iv d).1 := by
  have h32 : (s.iv ++ (gcm.enc s.encryptionKey s.iv d).2).length = 32 := by
    simp [hiv, htag]
  simp only [_decrypt, _encrypt]
  rw [List.drop_left' h32, List.append_assoc, List.take_left' hiv,
    List.drop_left' hiv, List.take_left' htag]

theorem afterStore_live (gcm : AEAD) (sha256hex : Str → Str)
    (s : SecureTemporaryStorage) (k : Str) (d : Bytes)
    (hdest : s.isDestroyed = false) :
    afterStore gcm sha256hex s k d
      = { s with files := writeFileFS s.files (storePath sha256hex s k) (_encrypt gcm s d) } := by
  simp [afterStore, store, hdest, storePath]

theorem cleanupEnv_isActive (env : IsolatedEnvironment) :
    (cleanupEnv env).isActive = false := by
  by_cases h : env.isActive <;> simp [cleanupEnv, h]

theorem destroyStorage_isDestroyed (s : SecureTemporaryStorage) :
    (destroyStorage s).isDestroyed = true := by
  by_cases h : s.isDestroyed <;> simp [destroyStorage, h]

theorem stepEnv_inactive (gcm : AEAD) (sha256hex : Str → Str)
    (env : IsolatedEnvironment) (op : EnvOp) (h : env.isActive = false) :
    stepEnv gcm sha256hex env op = (.error .envNotActive, env) := by
  cases op <;> simp [stepEnv, storeData, retrieveData, execute, h, Except.map]

theorem runOps_inactive (gcm : AEAD) (sha256hex : Str → Str)
    (env : IsolatedEnvironment) (ops : List EnvOp) (h : env.isActive = false) :
    runOps gcm sha256hex env ops = ops.map (fun _ => .error Err.envNotActive) := by
  induction ops with
  | nil => simp [runOps]
  | cons op rest ih => simp [runOps, stepEnv_inactive gcm sha256hex env op h, ih]

/-! ### Claim theorems -/

/-- C2: for every byte sequence `d` and key `k`, storing `d` under `k` in
a non-destroyed container and then retrieving `k` returns exactly `d`,
given the AES-GCM library round trip (decrypting what was encrypted under
the same key and IV, with the 128-bit tag the cipher produced, recovers
the plaintext). -/
theorem store_retrieve_roundtrip (gcm : AEAD) (sha256hex : Str → Str)
    (s : SecureTemporaryStorage) (k : Str) (d : Bytes)
    (hdest : s.isDestroyed = false)
    (hiv : s.iv.length = 16)
    (htag : (gcm.enc s.encryptionKey s.iv d).2.length = 16)
    (hdec : gcm.dec s.encryptionKey s.iv (gcm.enc s.encryptionKey s.iv d).2
      (gcm.enc s.encryptionKey s.iv d).1 = some d) :
    (store gcm sha256hex s k d).isOk = true ∧
    retrieve gcm sha256hex (afterStore gcm sha256hex s k d) k = .ok d := by
  refine ⟨by simp [store, hdest, Except.isOk, Except.toBool], ?_⟩
  rw [afterStore_live gcm sha256hex s k d hdest]
  simp only [retrieve, hdest, Bool.false_eq_true, if_false, storePath,
    readFileFS_writeFileFS, _decrypt_encrypt gcm s d hiv htag, hdec]

/-- Witness for C2 at a concrete container, key, and byte sequence. -/
theorem store_retrieve_roundtrip_witness :
    (store toyAEAD toyHash storage0 "user a".toList [10, 20, 30]).isOk = true ∧
    retrieve toyAEAD toyHash
        (afterStore toyAEAD toyHash storage0 "user a".toList [10, 20, 30])
        "user a".toList
      = .ok [10, 20, 30] :=
  store_retrieve_roundtrip toyAEAD toyHash storage0 "user a".toList [10, 20, 30]
    (by decide) (by decide) (by decide) (by decide)

/-- C3: once destruction has completed, every subsequent `storeData`,
`retrieveData`, and `execute` call on the environment fails with the
lifecycle error (and no such call ever succeeds, for traces of any
length); likewise `store`/`retrieve` on a destroyed storage container. -/
theorem post_destroy_lockout (gcm : AEAD) (sha256hex : Str → Str)
    (env : IsolatedEnvironment) (ops : List EnvOp)
    (s : SecureTemporaryStorage) (k : Str) (d : Bytes) :
    runOps gcm sha256hex (cleanupEnv env) ops
      = ops.map (fun _ => .error Err.envNotActive) ∧
    store gcm sha256hex (destroyStorage s) k d = .error .storageDestroyed ∧
    retrieve gcm sha256hex (destroyStorage s) k = .error .storageDestroyed := by
  refine ⟨runOps_inactive gcm sha256hex _ ops (cleanupEnv_isActive env), ?_, ?_⟩
  · simp [store, destroyStorage_isDestroyed s]
  · simp [retrieve, destroyStorage_isDestroyed s]

/-- C1 (defect evaluation): in one environment the IV drawn at
construction heads every ciphertext: two successive successful `store`
calls write blobs whose first sixteen bytes both equal the same
environment-wide `iv`, which no store refreshes — nonces are shared, not
fresh. -/
theorem store_reuses_environment_iv (gcm : AEAD) (sha256hex : Str → Str)
    (s : SecureTemporaryStorage) (k1 k2 : Str) (d1 d2 : Bytes)
    (hdest : s.isDestroyed = false) (hiv : s.iv.length = 16) :
    (store gcm sha256hex s k1 d1).isOk = true ∧
    (store gcm sha256hex (afterStore gcm sha256hex s k1 d1) k2 d2).isOk = true ∧
    readFileFS (afterStore gcm sha256hex s k1 d1).files (storePath sha256hex s k1)
      = some (_encrypt gcm s d1) ∧
    readFileFS (afterStore gcm sha256hex (afterStore gcm sha256hex s k1 d1) k2 d2).files
        (storePath sha256hex s k2)
      = some (_encrypt gcm (afterStore gcm sha256hex s k1 d1) d2) ∧
    (_encrypt gcm s d1).take 16 = s.iv ∧
    (_encrypt gcm (afterStore gcm sha256hex s k1 d1) d2).take 16 = s.iv ∧
    (afterStore gcm sha256hex s k1 d1).iv = s.iv := by
  have hs1 := afterStore_live gcm sha256hex s k1 d1 hdest
  have hs1dest : (afterStore gcm sha256hex s k1 d1).isDestroyed = false := by
    rw [hs1]; exact hdest
  have hs1iv : (afterStore gcm sha256hex s k1 d1).iv = s.iv := by rw [hs1]
  have hs2 := afterStore_live gcm sha256hex (afterStore gcm sha256hex s k1 d1) k2 d2 hs1dest
  refine ⟨by simp [store, hdest, Except.isOk, Except.toBool],
    by simp [store, hs1dest, Except.isOk, Except.toBool], ?_, ?_, ?_, ?_, hs1iv⟩
  · rw [hs1]; exact readFileFS_writeFileFS s.files _ _
  · rw [hs2]
    have : storePath sha256hex (afterStore gcm sha256hex s k1 d1) k2
        = storePath sha256hex s k2 := by
      rw [hs1]; rfl
    rw [this]
    exact readFileFS_writeFileFS _ _ _
  · simp only [_encrypt]
    rw [List.append_assoc, List.take_left' hiv]
  · simp only [_encrypt]
    rw [List.append_assoc, List.take_left' (by rw [hs1iv]; exact hiv), hs1iv]

/-- C4 (counterexample): with only the network-restore sub-step raising,
`handle.destroy` resolves `false` without ever attempting the store
destruction — the claim's "continuing through each later step" fails; and
with only the memory-scrub sub-step failing, it resolves `true` — the
claim's "returns success only if every step succeeded" fails. -/
theorem destroy_claim_counterexample :
    (destroyRun ⟨true, false, false, false⟩).1 = false ∧
    (destroyRun ⟨true, false, false, false⟩).2 = [DStep.netRestore, DStep.memCleanup] ∧
    DStep.storeDestroy ∉ (destroyRun ⟨true, false, false, false⟩).2 ∧
    (destroyRun ⟨false, false, false, true⟩).1 = true := by decide

/-- C4 (amended): `handle.destroy` always resolves with a boolean; the
memory-scrub step is attempted even when the earlier cleanup raised; the
result is `true` exactly when no cleanup sub-step raised (a memory-scrub
failure, reported by a `false` return rather than a raise, is ignored);
and the store-destruction sub-step is attempted exactly when neither
isolation-restore sub-step raised. -/
theorem destroy_model (f : DestroyFaults) :
    DStep.memCleanup ∈ (destroyRun f).2 ∧
    ((destroyRun f).1 = true ↔
      (f.netRestoreThrows = false ∧ f.fsRestoreThrows = false ∧
        f.storeDestroyThrows = false)) ∧
    (DStep.storeDestroy ∈ (destroyRun f).2 ↔
      (f.netRestoreThrows = false ∧ f.fsRestoreThrows = false)) := by
  rcases f with ⟨a, b, c, d⟩
  cases a <;> cases b <;> cases c <;> cases d <;> decide

/-- C5 (counterexample): the delete entry point (`fs.unlink`) is saved
but never replaced by `_restrictFileSystem`, so deleting a path outside
the allow-list passes through to the original operation instead of
failing with `PathNotAllowed`. -/
theorem restrict_fs_delete_not_intercepted :
    restrictedTable FsEntry.unlink = FsHandler.original ∧
    _isPathAllowed "/etc/passwd".toList ["/tmp".toList] = false ∧
    callFs ["/tmp".toList] FsEntry.unlink "/etc/passwd".toList
      = FsCallResult.passedThrough := by decide

/-- C5 (amended): while restriction is active the intercepted read and
write entry points fail with `PathNotAllowed` exactly on paths outside
the allow-list (after normalization) and pass through to the originals on
paths inside it; `fs.readdir` and `fs.unlink` are not intercepted and
always pass through. -/
theorem restrict_fs_read_write_enforced (allowedPaths : List Str) (p : Str) :
    (callFs allowedPaths FsEntry.readFile p = FsCallResult.pathNotAllowed
      ↔ _isPathAllowed p allowedPaths = false) ∧
    (callFs allowedPaths FsEntry.writeFile p = FsCallResult.pathNotAllowed
      ↔ _isPathAllowed p allowedPaths = false) ∧
    (callFs allowedPaths FsEntry.readFile p = FsCallResult.passedThrough
      ↔ _isPathAllowed p allowedPaths = true) ∧
    (callFs allowedPaths FsEntry.writeFile p = FsCallResult.passedThrough
      ↔ _isPathAllowed p allowedPaths = true) ∧
    callFs allowedPaths FsEntry.readdir p = FsCallResult.passedThrough ∧
    callFs allowedPaths FsEntry.unlink p = FsCallResult.passedThrough := by
  cases h : _isPathAllowed p allowedPaths <;> simp [callFs, restrictedTable, h]

/-- C6 (counterexample): a call through a replaced entry point does not
fail synchronously — nothing is thrown and no error is delivered during
the call itself; the `NetworkBlocked` error arrives only in the
`process.nextTick` phase. -/
theorem network_block_error_is_deferred :
    (overriddenStub NetEntry.httpRequest true).syncEvents = [] ∧
    (overriddenStub NetEntry.httpRequest true).throws = false ∧
    NetEvt.errorDelivered ∉ (overriddenStub NetEntry.httpRequest true).syncEvents ∧
    NetEvt.errorDelivered ∈ (overriddenStub NetEntry.httpRequest true).nextTickEvents := by
  decide

/-- C6 (amended): while blocking is active, every call through a replaced
entry point sends no bytes in either phase, returns without throwing, and
has the `NetworkBlocked` error delivered in the next event-loop tick. -/
theorem network_block_no_bytes_async_error (e : NetEntry) (cb : Bool) :
    NetEvt.sendBytes ∉ (overriddenStub e cb).syncEvents ∧
    NetEvt.sendBytes ∉ (overriddenStub e cb).nextTickEvents ∧
    NetEvt.errorDelivered ∈ (overriddenStub e cb).nextTickEvents ∧
    (overriddenStub e cb).throws = false := by
  cases e <;> cases cb <;> decide

/-- Witness for C1 at a concrete container: both stores succeed and both
ciphertext files begin with the same sixteen-byte IV. -/
theorem store_reuses_environment_iv_witness :
    (store toyAEAD toyHash storage0 "k one".toList [1]).isOk = true ∧
    (store toyAEAD toyHash (afterStore toyAEAD toyHash storage0 "k one".toList [1])
      "k two".toList [2]).isOk = true ∧
    readFileFS (afterStore toyAEAD toyHash storage0 "k one".toList [1]).files
        (storePath toyHash storage0 "k one".toList)
      = some (_encrypt toyAEAD storage0 [1]) ∧
    readFileFS (afterStore toyAEAD toyHash
        (afterStore toyAEAD toyHash storage0 "k one".toList [1]) "k two".toList [2]).files
        (storePath toyHash storage0 "k two".toList)
      = some (_encrypt toyAEAD (afterStore toyAEAD toyHash storage0 "k one".toList [1]) [2]) ∧
    (_encrypt toyAEAD storage0 [1]).take 16 = storage0.iv ∧
    (_encrypt toyAEAD (afterStore toyAEAD toyHash storage0 "k one".toList [1]) [2]).take 16
      = storage0.iv ∧
    (afterStore toyAEAD toyHash storage0 "k one".toList [1]).iv = storage0.iv :=
  store_reuses_environment_iv toyAEAD toyHash storage0 "k one".toList "k two".toList
    [1] [2] (by decide) (by decide)

theorem writesOf_flatten (l : List Nat) (g : Nat → Bytes) (tail : List DevOp) :
    writesOf (((l.map fun i => [DevOp.write (g i), DevOp.sync]).flatten) ++ tail)
      = l.map g ++ writesOf tail := by
  induction l with
  | nil => simp
  | cons i rest ih => simp [writesOf, ih]

theorem syncFollowsWrites_flatten (l : List Nat) (g : Nat → Bytes) :
    syncFollowsWrites (((l.map fun i => [DevOp.write (g i), DevOp.sync]).flatten)
      ++ [DevOp.closeHandle, DevOp.unlink]) = true := by
  induction l with
  | nil => rfl
  | cons i rest ih => simpa [syncFollowsWrites] using ih

theorem secureDeleteManual_shape (passes fileSize : Nat) (rnd : Nat → Bytes) :
    secureDeleteManual passes fileSize rnd
      = (((List.range passes).map fun i =>
          [DevOp.write (overwritePattern passes fileSize rnd i), DevOp.sync]).flatten)
        ++ [DevOp.closeHandle, DevOp.unlink] := by
  simp [secureDeleteManual, overwriteFile]

/-- C7: on the manual overwrite path with `passes` (defaulting to 3, and
at least 2), the file's full byte range is overwritten exactly `passes`
times — pass 0 all-ones bytes, the final pass all-zeros bytes, every
intermediate pass the fresh output of the entropy oracle — every write is
synced to the device before the next, and the `unlink` is the last
operation. -/
theorem secure_delete_overwrite_schedule (passes fileSize : Nat) (rnd : Nat → Bytes)
    (hp : 2 ≤ passes) (hr : ∀ i, (rnd i).length = fileSize) :
    secureDeleteDefaultPasses = 3 ∧
    (writesOf (secureDeleteManual passes fileSize rnd)).length = passes ∧
    (∀ i, i < passes → (writesOf (secureDeleteManual passes fileSize rnd))[i]?
      = some (overwritePattern passes fileSize rnd i)) ∧
    overwritePattern passes fileSize rnd 0 = List.replicate fileSize 0xFF ∧
    overwritePattern passes fileSize rnd (passes - 1) = List.replicate fileSize 0x00 ∧
    (∀ i, 0 < i → i + 1 < passes → overwritePattern passes fileSize rnd i = rnd i) ∧
    (∀ b ∈ writesOf (secureDeleteManual passes fileSize rnd), b.length = fileSize) ∧
    syncFollowsWrites (secureDeleteManual passes fileSize rnd) = true ∧
    (secureDeleteManual passes fileSize rnd).getLast? = some DevOp.unlink := by
  have hshape := secureDeleteManual_shape passes fileSize rnd
  have hw : writesOf (secureDeleteManual passes fileSize rnd)
      = (List.range passes).map (overwritePattern passes fileSize rnd) := by
    rw [hshape, writesOf_flatten]
    simp [writesOf]
  refine ⟨rfl, ?_, ?_, ?_, ?_, ?_, ?_, ?_, ?_⟩
  · simp [hw]
  · intro i hi
    simp [hw, List.getElem?_range hi]
  · simp [overwritePattern]
  · have h1 : passes - 1 ≠ 0 := by omega
    simp [overwritePattern, h1]
  · intro i h0 hlt
    have h1 : i ≠ 0 := by omega
    have h2 : i ≠ passes - 1 := by omega
    simp [overwritePattern, h1, h2]
  · intro b hb
    rw [hw] at hb
    simp only [List.mem_map] at hb
    obtain ⟨i, _, rfl⟩ := hb
    simp only [overwritePattern]
    split
    · simp
    · split
      · simp
      · exact hr i
  · rw [hshape]
    exact syncFollowsWrites_flatten _ _
  · simp [secureDeleteManual, List.getLast?_concat]

/-- Witness for C7 at the default pass count on a two-byte file. -/
theorem secure_delete_overwrite_schedule_witness :
    secureDeleteDefaultPasses = 3 ∧
    (writesOf (secureDeleteManual 3 2 (fun _ => [7, 9]))).length = 3 ∧
    (∀ i, i < 3 → (writesOf (secureDeleteManual 3 2 (fun _ => [7, 9])))[i]?
      = some (overwritePattern 3 2 (fun _ => [7, 9]) i)) ∧
    overwritePattern 3 2 (fun _ => [7, 9]) 0 = List.replicate 2 0xFF ∧
    overwritePattern 3 2 (fun _ => [7, 9]) (3 - 1) = List.replicate 2 0x00 ∧
    (∀ i, 0 < i → i + 1 < 3 → overwritePattern 3 2 (fun _ => [7, 9]) i = [7, 9]) ∧
    (∀ b ∈ writesOf (secureDeleteManual 3 2 (fun _ => [7, 9])), b.length = 2) ∧
    syncFollowsWrites (secureDeleteManual 3 2 (fun _ => [7, 9])) = true ∧
    (secureDeleteManual 3 2 (fun _ => [7, 9])).getLast? = some DevOp.unlink :=
  secure_delete_overwrite_schedule 3 2 (fun _ => [7, 9]) (by decide) (fun _ => rfl)

/-- C8 (counterexample): when pass 0's write fails, the run makes exactly
one write attempt — no retry — aborts with the error, and never reaches
`unlink`; the claim's "a failed overwrite pass is retried once" is false
on the code. -/
theorem overwrite_pass_failure_not_retried :
    (secureDeleteManualRun 3 (fun n => n != 0)).1.isOk = false ∧
    countAttempts (secureDeleteManualRun 3 (fun n => n != 0)).2 = 1 ∧
    (secureDeleteManualRun 3 (fun n => n != 0)).2
      = [RunEv.attemptWrite 0, RunEv.closed] ∧
    RunEv.unlinked ∉ (secureDeleteManualRun 3 (fun n => n != 0)).2 := by decide

theorem countAttempts_append (t1 t2 : List RunEv) :
    countAttempts (t1 ++ t2) = countAttempts t1 + countAttempts t2 := by
  induction t1 with
  | nil => simp [countAttempts]
  | cons e rest ih =>
    cases e
    · rw [List.cons_append]
      show countAttempts (rest ++ t2) + 1 = countAttempts rest + 1 + countAttempts t2
      rw [ih]
      omega
    · simp [countAttempts, ih]
    · simp [countAttempts, ih]
    · simp [countAttempts, ih]

theorem overwriteRunGo_spec (ok : Nat → Bool) (l : List Nat) :
    ((overwriteRunGo ok l).1.isOk = true ↔ ∀ i ∈ l, ok i = true) ∧
    countAttempts (overwriteRunGo ok l).2 ≤ l.length ∧
    RunEv.unlinked ∉ (overwriteRunGo ok l).2 := by
  induction l with
  | nil => simp [overwriteRunGo, countAttempts, Except.isOk, Except.toBool]
  | cons i rest ih =>
    obtain ⟨ih1, ih2, ih3⟩ := ih
    cases h : ok i
    · simp only [overwriteRunGo, h, Bool.false_eq_true, if_false]
      refine ⟨?_, by simp [countAttempts], by simp⟩
      refine iff_of_false (by simp [Except.isOk, Except.toBool]) (fun hall => ?_)
      exact absurd (hall i (List.mem_cons_self i rest)) (by simp [h])
    · simp only [overwriteRunGo, h, if_true]
      refine ⟨?_, ?_, ?_⟩
      · rw [ih1]
        constructor
        · intro hall j hj
          rcases List.mem_cons.mp hj with rfl | hj'
          · exact h
          · exact hall j hj'
        · intro hall j hj
          exact hall j (List.mem_cons_of_mem i hj)
      · simp only [countAttempts, List.length_cons]
        omega
      · simp [ih3]

/-- C8 (amended): a failed overwrite pass is not retried — each pass
makes at most one write attempt in total — the run resolves exactly when
every pass's write succeeded, and the file is unlinked exactly when the
run resolved, so it is never unlinked without all its bytes having been
overwritten. -/
theorem overwrite_failure_aborts_deletion (passes : Nat) (ok : Nat → Bool) :
    (RunEv.unlinked ∈ (secureDeleteManualRun passes ok).2
      ↔ (secureDeleteManualRun passes ok).1.isOk = true) ∧
    ((secureDeleteManualRun passes ok).1.isOk = true ↔ ∀ i < passes, ok i = true) ∧
    countAttempts (secureDeleteManualRun passes ok).2 ≤ passes := by
  obtain ⟨h1, h2, h3⟩ := overwriteRunGo_spec ok (List.range passes)
  have hlen : (List.range passes).length = passes := List.length_range passes
  have hmem : (∀ i ∈ List.range passes, ok i = true) ↔ ∀ i < passes, ok i = true := by
    constructor
    · intro hall i hi
      exact hall i (List.mem_range.mpr hi)
    · intro hall i hi
      exact hall i (List.mem_range.mp hi)
  cases hgo : (overwriteRunGo ok (List.range passes)).1 with
  | ok u =>
    cases u
    have hres : secureDeleteManualRun passes ok
        = (.ok (), ((overwriteRunGo ok (List.range passes)).2 ++ [RunEv.closed])
            ++ [RunEv.unlinked]) := by
      simp [secureDeleteManualRun, overwriteRun, hgo]
    rw [hres]
    rw [hgo] at h1
    simp only [countAttempts_append]
    refine ⟨by simp [Except.isOk, Except.toBool], ?_, ?_⟩
    · exact iff_of_true rfl (hmem.mp (h1.mp rfl))
    · simp [countAttempts]
      omega
  | error u =>
    cases u
    have hres : secureDeleteManualRun passes ok
        = (.error (), (overwriteRunGo ok (List.range passes)).2 ++ [RunEv.closed]) := by
      simp [secureDeleteManualRun, overwriteRun, hgo]
    rw [hres]
    rw [hgo] at h1
    simp only [countAttempts_append]
    refine ⟨?_, ?_, ?_⟩
    · simp only [Except.isOk, Except.toBool]
      simp [h3]
    · refine iff_of_false (by simp [Except.isOk, Except.toBool]) (fun hall => ?_)
      exact absurd (h1.mpr (hmem.mpr hall)) (by simp [Except.isOk, Except.toBool])
    · simp [countAttempts]
      omega

/-- C9 (defect evaluation): `_sanitizeKey` leaves `..` untouched (only
the characters `/\?%*:|"<>` are replaced), so `store('..', data)`
succeeds and writes to `path.join(storageRoot, '..')` — the parent of
`storageRoot`, not a path under it — while an ordinary key does stay
under the root. -/
theorem sanitize_dotdot_escapes_storage_root :
    _sanitizeKey toyHash "..".toList = "..".toList ∧
    storePath toyHash storage0 "..".toList = "/tmp/data-grabber".toList ∧
    (store toyAEAD toyHash storage0 "..".toList [1, 2, 3]).isOk = true ∧
    liesUnderStorageRoot storage0.storagePath (storePath toyHash storage0 "..".toList)
      = false ∧
    liesUnderStorageRoot storage0.storagePath (storePath toyHash storage0 "report".toList)
      = true := by decide

/-- C10: the path-allowance check accepts exactly the paths whose
normalized form equals a normalized allowed path or extends one at a
separator boundary; in particular a sibling that merely shares a string
prefix (`/tmp-evil` with `/tmp` allowed) is rejected, boundary extensions
and the path itself are accepted, and normalization defeats `..`
traversal. -/
theorem path_allowance_boundary_only (testPath : Str) (allowedPaths : List Str) :
    (_isPathAllowed testPath allowedPaths = true ↔
      ∃ a ∈ allowedPaths,
        pathNormalize testPath = pathNormalize a ∨
        (pathNormalize a ++ pathSep).isPrefixOf (pathNormalize testPath) = true) ∧
    _isPathAllowed "/tmp-evil".toList ["/tmp".toList] = false ∧
    _isPathAllowed "/tmp/sub/x".toList ["/tmp".toList] = true ∧
    _isPathAllowed "/tmp".toList ["/tmp".toList] = true ∧
    _isPathAllowed "/tmp/../etc/passwd".toList ["/tmp".toList] = false := by
  refine ⟨?_, by decide, by decide, by decide, by decide⟩
  simp [_isPathAllowed, List.any_eq_true]

end DataGrabber
